import Mathlib

/-!
# Verification of the 7TV emote core (`SeventvEmotes.cpp`)

A shallow embedding of the emote-collection core: JSON values with Qt's
conversion semantics, the image-variant selector (`createImageSet`), the
batch builder (`parseEmotes`), the intern cache (`cachedOrMake`), and the
incremental operations (`addEmote`, `updateEmote`, `removeEmote`).

Machine doubles carry only small integral widths here, so they are modelled
as exact rationals; shared pointers are modelled as values tagged with an
allocation counter, so that pointer identity is the identity of tags.
-/

set_option autoImplicit false

namespace Seventv

/-- A JSON value (`QJsonValue`). Qt's `Undefined` is observationally equal to
`Null` under every conversion used by the source, so a missing key is
modelled as `null`. -/
inductive Json where
  | null : Json
  | bool (b : Bool) : Json
  | num (q : ℚ) : Json
  | str (s : String) : Json
  | arr (elems : List Json) : Json
  | obj (fields : List (String × Json)) : Json

/-- A JSON object (`QJsonObject`): a finite list of key/value fields. -/
abbrev JsonObj := List (String × Json)

/-- `QJsonObject::operator[]`: the value of the first field with the given
key, `Undefined` (modelled as `null`) when the key is missing. -/
def JsonObj.value : JsonObj → String → Json
  | [], _ => .null
  | (k, v) :: rest, key => if k = key then v else JsonObj.value rest key

/-- `QJsonObject::empty()`. -/
def JsonObj.isEmptyObj (o : JsonObj) : Bool := o.isEmpty

/-- `QJsonValue::operator[](key)`: field lookup on objects, `Undefined`
(modelled as `null`) on every other kind of value. -/
def Json.get (j : Json) (key : String) : Json :=
  match j with
  | .obj fields => JsonObj.value fields key
  | _ => .null

/-- `QJsonValue::toObject()`: the fields when the value is an object, the
empty object otherwise. -/
def Json.toObject : Json → JsonObj
  | .obj fields => fields
  | _ => []

/-- `QJsonValue::toArray()`: the elements when the value is an array, the
empty array otherwise. -/
def Json.toArray : Json → List Json
  | .arr elems => elems
  | _ => []

/-- `QJsonValue::toString()`: the string when the value is a string, the
empty string otherwise. -/
def Json.toString : Json → String
  | .str s => s
  | _ => ""

/-- `QJsonValue::toBool()`: the boolean when the value is a boolean,
`false` otherwise. -/
def Json.toBool : Json → Bool
  | .bool b => b
  | _ => false

/-- `QJsonValue::toDouble()`: the number when the value is a number,
`0` otherwise. -/
def Json.toDouble : Json → ℚ
  | .num q => q
  | _ => 0

/-- `QJsonValue::toInt(defaultValue)`: the number when it is a whole number,
the default otherwise (Qt returns the default for every non-integral
double). -/
def Json.toInt (j : Json) (d : Int) : Int :=
  match j with
  | .num q => if q.den == 1 then q.num else d
  | _ => d

/-- `QJsonValue::isString`-equality as used by `QJsonArray::contains`:
a JSON value equals a given string iff it is that string. -/
def Json.isStr (j : Json) (s : String) : Bool :=
  match j with
  | .str t => t == s
  | _ => false

/-- `QJsonArray::contains(QJsonValue(s))`. -/
def jsonArrContains (elems : List Json) (s : String) : Bool :=
  elems.any (fun j => j.isStr s)

/-- Truncation of a rational toward zero, as `static_cast<int>` on a
double. -/
def ratTruncToInt (q : ℚ) : Int := q.num / (q.den : Int)

/-- The three emote-set kinds (`SeventvEmoteSetKind`). -/
inductive SeventvEmoteSetKind where
  | Global : SeventvEmoteSetKind
  | Personal : SeventvEmoteSetKind
  | Channel : SeventvEmoteSetKind
deriving DecidableEq, Repr

/-- The settings snapshot consumed by the core, injected explicitly:
"allow next-gen image format" and "show unlisted emotes". -/
structure Settings where
  allowAvifImages : Bool
  showUnlistedSevenTVEmotes : Bool
deriving DecidableEq, Repr

/-- Bit test on a flags integer, as `FlagsEnum::has` for a one-bit flag.
Negative flag values do not occur in provider data; they read as no flags. -/
def hasFlag (flags : Int) (bit : Nat) : Bool :=
  flags.toNat.testBit bit

/-- Modelled from the spec: `SeventvActiveEmoteFlag::ZeroWidth`, the
zero-width bit of an active emote's flags (`SeventvEmotes.hpp`, not under
`src/`). -/
def activeZeroWidthBit : Nat := 0

/-- Modelled from the spec: `SeventvEmoteFlag::ZeroWidth`, the recommended
zero-width bit of the emote data flags (`SeventvEmotes.hpp`, not under
`src/`). -/
def emoteZeroWidthBit : Nat := 8

/-- Modelled from the spec: `SeventvEmoteFlag::ContentTwitchDisallowed`, the
disallowed-on-platform bit (`SeventvEmotes.hpp`, not under `src/`). -/
def contentTwitchDisallowedBit : Nat := 24

/-- Modelled from the spec: an image variant (`messages/Image`, not under
`src/`): a remote reference, a scale factor and pixel dimensions. -/
structure Image where
  url : String
  scale : ℚ
  width : Int
  height : Int
deriving DecidableEq, Repr

/-- Modelled from the spec: `Image::getEmpty()`, the explicit "empty"
placeholder variant, distinguishable from every real variant. -/
def Image.getEmpty : Image := ⟨"", 1, 0, 0⟩

/-- Modelled from the spec: `Image::isEmpty()`: the placeholder (empty URL)
is empty, a real remote variant is not. -/
def Image.isEmpty (i : Image) : Bool := i.url.isEmpty

/-- Modelled from the spec: `Image::fromUrl`. -/
def Image.fromUrl (url : String) (scale : ℚ) (width height : Int) : Image :=
  ⟨url, scale, width, height⟩

/-- An `ImagePtr` (`std::shared_ptr<Image>`): possibly null. -/
abbrev ImagePtr := Option Image

/-- Modelled from the spec: `ImageSet` (`messages/ImageSet`, not under
`src/`): the published triad (slot 0, slot 1, resolved largest). -/
structure ImageSet where
  img1 : ImagePtr
  img2 : ImagePtr
  img3 : ImagePtr
deriving DecidableEq, Repr

/-- Modelled from the spec: `ImageSet{}`, the explicitly-empty variant set
signalling "unusable": every slot holds the empty placeholder. -/
def ImageSet.emptySet : ImageSet :=
  ⟨some Image.getEmpty, some Image.getEmpty, some Image.getEmpty⟩

/-- Modelled from the spec: `ImageSet::getImage1()` followed by
`Image::isEmpty()`; the primary slot is never null (see
`createImageSet_img1_isSome`), so a null slot defaults to the placeholder. -/
def ImageSet.image1IsEmpty (s : ImageSet) : Bool :=
  (s.img1.map Image.isEmpty).getD true

/-- An emote record (`Emote` of `messages/Emote.hpp`), fields in source
order. -/
structure Emote where
  name : String
  images : ImageSet
  tooltip : String
  homePage : String
  zeroWidth : Bool
  id : String
  author : String
  baseName : Option String
deriving DecidableEq, Repr

/-- A shared emote pointer (`EmotePtr`): the record tagged with its
allocation number, so that pointer identity is tag identity. -/
structure EmotePtr where
  tag : Nat
  emote : Emote
deriving DecidableEq, Repr

/-- Modelled from the spec: `makeConditionedOptional` (`util/Helpers.hpp`,
not under `src/`): an optional that is present iff the condition holds. -/
def makeConditionedOptional {α : Type} (cond : Bool) (v : α) : Option α :=
  if cond then some v else none

/-- The intern cache: identifier to weakly-held record; `none` models an
expired weak entry. -/
abbrev Cache := List (String × Option EmotePtr)

/-- Live lookup in the intern cache: the shared record, provided the entry
exists and its weak pointer is still live. -/
def Cache.lookupLive : Cache → String → Option EmotePtr
  | [], _ => none
  | (k, w) :: rest, id => if k = id then (match w with
      | some p => some p
      | none => none)
    else Cache.lookupLive rest id

/-- Insert or overwrite a cache entry. -/
def Cache.insertW : Cache → String → Option EmotePtr → Cache
  | [], id, w => [(id, w)]
  | (k, v) :: rest, id, w =>
    if k = id then (id, w) :: rest else (k, v) :: Cache.insertW rest id w

/-- Modelled from the spec: `cachedOrMakeEmotePtr` (`util/Helpers.hpp`, not
under `src/`), the contract of §4.2: look the identifier up; if a live entry
exists return it, ignoring the candidate entirely; otherwise allocate the
candidate, store it weakly and return it. The allocation counter supplies
fresh tags. -/
def cachedOrMakeEmotePtr (emote : Emote) (cache : Cache) (id : String)
    (alloc : Nat) : EmotePtr × Cache × Nat :=
  match cache.lookupLive id with
  | some p => (p, cache, alloc)
  | none =>
    let p : EmotePtr := ⟨alloc, emote⟩
    (p, cache.insertW id (some p), alloc + 1)

/-- `cachedOrMake` of the source: the process-wide cache and its lock are
threaded as explicit state. -/
def cachedOrMake (emote : Emote) (id : String) (cache : Cache) (alloc : Nat) :
    EmotePtr × Cache × Nat :=
  cachedOrMakeEmotePtr emote cache id alloc

/-- `isZeroWidthActive`: whether the active emote's flags carry the
zero-width bit. -/
def isZeroWidthActive (activeEmote : JsonObj) : Bool :=
  hasFlag ((activeEmote.value "flags").toInt 0) activeZeroWidthBit

/-- `kindToString`. -/
def kindToString (kind : SeventvEmoteSetKind) : String :=
  match kind with
  | .Global => "Global"
  | .Personal => "Personal"
  | .Channel => "Channel"

/-- `createTooltip`, the non-aliased tooltip form. -/
def createTooltip (name author : String) (kind : SeventvEmoteSetKind) :
    String :=
  name ++ "<br>" ++ kindToString kind ++ " 7TV Emote<br>By: " ++
    (if author.isEmpty then "<deleted>" else author)

/-- `createAliasedTooltip`, the aliased tooltip form. -/
def createAliasedTooltip (name baseName author : String)
    (kind : SeventvEmoteSetKind) : String :=
  name ++ "<br>Alias of " ++ baseName ++ "<br>" ++ kindToString kind ++
    " 7TV Emote<br>By: " ++ (if author.isEmpty then "<deleted>" else author)

/-- `EMOTE_LINK_FORMAT.arg(id)`. -/
def emoteLinkFor (id : String) : String := "https://7tv.app/emotes/" ++ id

/-- The state of the variant-filling loop of `createImageSet`: the four
slots, the reference width (`baseWidth`, 0 before the first match), and the
next slot index. -/
structure SizesState where
  sizes : List ImagePtr
  baseWidth : ℚ
  nextSize : Nat
deriving DecidableEq, Repr

/-- The initial loop state: four null slots. -/
def SizesState.init : SizesState := ⟨[none, none, none, none], 0, 0⟩

/-- The `targetFormat` lambda of `createImageSet`: if next-gen support is
off or there are no files, the legacy format; with one file, that file's
declared format; otherwise next-gen iff one of the first two files declares
it, else legacy. -/
def targetFormat (allowAvif : Bool) (files : List Json) : String :=
  if !allowAvif || files.isEmpty then "WEBP"
  else
    let first := ((files.getD 0 .null).get "format").toString
    if files.length < 2 then first
    else
      let second := ((files.getD 1 .null).get "format").toString
      if first == "AVIF" || second == "AVIF" then "AVIF" else "WEBP"

/-- The image built from one file descriptor at a given scale: the remote
reference from the base URL and file name, with the cast pixel width and the
height defaulting to 16. -/
def mkFileImage (baseUrl : String) (fileItem : Json) (scale : ℚ) : Image :=
  let file := fileItem.toObject
  Image.fromUrl
    ("https:" ++ baseUrl ++ "/" ++ (file.value "name").toString)
    scale (ratTruncToInt (file.value "width").toDouble)
    ((file.value "height").toInt 16)

/-- One iteration of the variant-filling loop: once four slots are filled
the loop has broken; a file of the wrong format is skipped; otherwise the
slot receives the image, whose scale is `baseWidth / width` when a reference
width is established and `1` for the establishing file. -/
def fillStep (baseUrl target : String) (st : SizesState) (fileItem : Json) :
    SizesState :=
  if st.nextSize ≥ 4 then st
  else
    let file := fileItem.toObject
    if (file.value "format").toString != target then st
    else
      let width := (file.value "width").toDouble
      let scale : ℚ := if st.baseWidth > 0 then st.baseWidth / width else 1
      let baseWidth := if st.baseWidth > 0 then st.baseWidth else width
      ⟨st.sizes.set st.nextSize (some (mkFileImage baseUrl fileItem scale)),
        baseWidth, st.nextSize + 1⟩

/-- The variant-filling loop over the file list. -/
def fillSizes (baseUrl target : String) (files : List Json)
    (st : SizesState) : SizesState :=
  files.foldl (fillStep baseUrl target) st

/-- Padding of the unfilled trailing slots with the explicit empty
placeholder. -/
def padSizes (sizes : List ImagePtr) (nextSize : Nat) : List ImagePtr :=
  (List.range sizes.length).map
    (fun i => if i ≥ nextSize then some Image.getEmpty else sizes.getD i none)

/-- Largest-size resolution: slot 3 when present and non-empty, slot 2
otherwise. -/
def pickLargest (slot2 slot3 : ImagePtr) : ImagePtr :=
  match slot3 with
  | none => slot2
  | some l => if l.isEmpty then slot2 else some l

/-- The format choice, loop, padding and largest-resolution of
`createImageSet`, parameterized by the extracted base URL and file list. -/
def createImageSetFrom (allowAvif : Bool) (baseUrl : String)
    (files : List Json) : ImageSet :=
  let target := targetFormat allowAvif files
  let final := fillSizes baseUrl target files SizesState.init
  if final.nextSize = 0 then ImageSet.emptySet
  else
    let sizes := padSizes final.sizes final.nextSize
    let largest := pickLargest (sizes.getD 2 none) (sizes.getD 3 none)
    ⟨sizes.getD 0 none, sizes.getD 1 none, largest⟩

/-- `SeventvEmotes::createImageSet`. -/
def createImageSet (s : Settings) (emoteData : JsonObj) : ImageSet :=
  let host := (emoteData.value "host").toObject
  createImageSetFrom s.allowAvifImages ((host.value "url").toString)
    ((host.value "files").toArray)

/-- `checkEmoteVisibility`: listed (or the unlisted option on), carrying the
personal-allowance tag when the set is personal, and not flagged
disallowed-on-platform. -/
def checkEmoteVisibility (s : Settings) (emoteData : JsonObj)
    (kind : SeventvEmoteSetKind) : Bool :=
  if !(emoteData.value "listed").toBool && !s.showUnlistedSevenTVEmotes then
    false
  else if kind = SeventvEmoteSetKind.Personal &&
      !jsonArrContains (emoteData.value "state").toArray "PERSONAL" then
    false
  else
    !hasFlag ((emoteData.value "flags").toInt 0) contentTwitchDisallowedBit

/-- `CreateEmoteResult`. -/
structure CreateEmoteResult where
  emote : Emote
  id : String
  name : String
  hasImages : Bool
deriving DecidableEq, Repr

/-- `createEmote`: the record built from an active emote and its metadata. -/
def createEmote (s : Settings) (activeEmote emoteData : JsonObj)
    (kind : SeventvEmoteSetKind) : CreateEmoteResult :=
  let emoteId := (activeEmote.value "id").toString
  let emoteName := (activeEmote.value "name").toString
  let author :=
    ((emoteData.value "owner").toObject.value "display_name").toString
  let baseEmoteName := (emoteData.value "name").toString
  let zeroWidth := isZeroWidthActive activeEmote
  let aliasedName := emoteName != baseEmoteName
  let tooltip :=
    if aliasedName then
      createAliasedTooltip emoteName baseEmoteName author kind
    else
      createTooltip emoteName author kind
  let imageSet := createImageSet s emoteData
  let emote : Emote :=
    ⟨emoteName, imageSet, tooltip, emoteLinkFor emoteId, zeroWidth, emoteId,
      author, makeConditionedOptional aliasedName baseEmoteName⟩
  ⟨emote, emoteId, emoteName, !imageSet.image1IsEmpty⟩

/-- `EmoteUpdateDispatch`: the fields consumed by the core (the new display
name and the identifier). -/
structure EmoteUpdateDispatch where
  emoteID : String
  emoteName : String
deriving DecidableEq, Repr

/-- `createUpdatedEmote`: the replacement record for a rename. -/
def createUpdatedEmote (oldEmote : EmotePtr) (dispatch : EmoteUpdateDispatch)
    (kind : SeventvEmoteSetKind) : Emote :=
  let old := oldEmote.emote
  let toNonAliased :=
    old.baseName.isSome && (some dispatch.emoteName == old.baseName)
  let baseName := old.baseName.getD old.name
  ⟨dispatch.emoteName, old.images,
    (if toNonAliased then
      createTooltip dispatch.emoteName old.author kind
    else
      createAliasedTooltip dispatch.emoteName baseName old.author kind),
    old.homePage, old.zeroWidth, old.id, old.author,
    makeConditionedOptional (!toNonAliased) baseName⟩

/-- The emote collection (`EmoteMap`): display name to shared record. -/
abbrev EmoteMap := List (String × EmotePtr)

/-- `EmoteMap` lookup by display name (`find`). -/
def EmoteMap.lookupName : EmoteMap → String → Option EmotePtr
  | [], _ => none
  | (k, v) :: rest, name =>
    if k = name then some v else EmoteMap.lookupName rest name

/-- `operator[]` assignment of `EmoteMap`: overwrite the existing entry in
place, or append a new one. -/
def EmoteMap.insertE : EmoteMap → String → EmotePtr → EmoteMap
  | [], k, v => [(k, v)]
  | (k', v') :: rest, k, v =>
    if k' = k then (k, v) :: rest else (k', v') :: EmoteMap.insertE rest k v

/-- `EmoteMap::erase(key)`. -/
def EmoteMap.eraseE : EmoteMap → String → EmoteMap
  | [], _ => []
  | (k', v') :: rest, k =>
    if k' = k then rest else (k', v') :: EmoteMap.eraseE rest k

/-- The first entry whose record carries the given identifier. -/
def EmoteMap.findById : EmoteMap → String → Option (String × EmotePtr)
  | [], _ => none
  | (k, v) :: rest, id =>
    if v.emote.id = id then some (k, v) else EmoteMap.findById rest id

/-- Modelled from the spec: `EmoteMap::findEmote` (`messages/Emote.cpp`, not
under `src/`): locate the entry by display name, falling back to a scan by
identifier. -/
def EmoteMap.findEmote (m : EmoteMap) (name id : String) :
    Option (String × EmotePtr) :=
  match m.lookupName name with
  | some v => some (name, v)
  | none => m.findById id

/-- The state threaded through a batch build: the collection under
construction, the intern cache, and the allocation counter. -/
structure BuildState where
  emotes : EmoteMap
  cache : Cache
  alloc : Nat
deriving DecidableEq, Repr

/-- The body of the `parseEmotes` loop: skip the entry when its metadata is
absent, when it fails the visibility policy, or when the built record has no
images; otherwise intern the record and store it under its display name. -/
def parseEmotesStep (s : Settings) (kind : SeventvEmoteSetKind)
    (st : BuildState) (activeEmoteJson : Json) : BuildState :=
  let activeEmote := activeEmoteJson.toObject
  let emoteData := (activeEmote.value "data").toObject
  if emoteData.isEmptyObj || !checkEmoteVisibility s emoteData kind then st
  else
    let result := createEmote s activeEmote emoteData kind
    if !result.hasImages then st
    else
      let pca := cachedOrMake result.emote result.id st.cache st.alloc
      ⟨st.emotes.insertE result.name pca.1, pca.2.1, pca.2.2⟩

/-- `seventv::detail::parseEmotes`: the batch builder. -/
def parseEmotes (s : Settings) (emoteSetEmotes : List Json)
    (kind : SeventvEmoteSetKind) (cache : Cache) (alloc : Nat) : BuildState :=
  emoteSetEmotes.foldl (parseEmotesStep s kind) ⟨[], cache, alloc⟩

/-- `EmoteAddDispatch`: the field consumed by the core. -/
structure EmoteAddDispatch where
  emoteJson : JsonObj

/-- `EmoteRemoveDispatch`: the fields consumed by the core. -/
structure EmoteRemoveDispatch where
  emoteID : String
  emoteName : String
deriving DecidableEq, Repr

/-- The outcome of one incremental operation on the collection cell: the
cell contents afterwards, whether a new snapshot was published (`set` was
called), the returned record, and the allocation counter. -/
structure MutationResult where
  map : EmoteMap
  published : Bool
  returned : Option EmotePtr
  alloc : Nat
deriving DecidableEq, Repr

/-- `SeventvEmotes::addEmote`: reject (without publishing) when the metadata
is absent, fails visibility, or the built record has no images; otherwise
allocate a fresh shared record and publish the copy with it inserted under
its display name. -/
def addEmote (s : Settings) (map : EmoteMap) (dispatch : EmoteAddDispatch)
    (kind : SeventvEmoteSetKind) (alloc : Nat) : MutationResult :=
  let emoteData := (dispatch.emoteJson.value "data").toObject
  if emoteData.isEmptyObj || !checkEmoteVisibility s emoteData kind then
    ⟨map, false, none, alloc⟩
  else
    let updatedMap := map
    let result := createEmote s dispatch.emoteJson emoteData kind
    if !result.hasImages then ⟨map, false, none, alloc⟩
    else
      let emote : EmotePtr := ⟨alloc, result.emote⟩
      ⟨updatedMap.insertE result.name emote, true, some emote, alloc + 1⟩

/-- `SeventvEmotes::updateEmote`: locate by display name or identifier;
on a miss publish nothing; otherwise erase the located record under its own
name field, insert the freshly allocated replacement under the new display
name, and publish. -/
def updateEmote (map : EmoteMap) (dispatch : EmoteUpdateDispatch)
    (kind : SeventvEmoteSetKind) (alloc : Nat) : MutationResult :=
  match map.findEmote dispatch.emoteName dispatch.emoteID with
  | none => ⟨map, false, none, alloc⟩
  | some oldEmote =>
    let updatedMap := map.eraseE oldEmote.2.emote.name
    let emote : EmotePtr := ⟨alloc, createUpdatedEmote oldEmote.2 dispatch kind⟩
    ⟨updatedMap.insertE emote.emote.name emote, true, some emote, alloc + 1⟩

/-- `SeventvEmotes::removeEmote`: locate by display name or identifier; on a
miss publish nothing; otherwise erase the located entry and publish. -/
def removeEmote (map : EmoteMap) (dispatch : EmoteRemoveDispatch)
    (alloc : Nat) : MutationResult :=
  match map.findEmote dispatch.emoteName dispatch.emoteID with
  | none => ⟨map, false, none, alloc⟩
  | some it => ⟨map.eraseE it.1, true, some it.2, alloc⟩

/-! ## Derived views of a raw batch entry -/

/-- The embedded emote metadata of a raw batch entry. -/
def entryData (e : Json) : JsonObj := (e.toObject.value "data").toObject

/-- The identifier of a raw batch entry. -/
def entryId (e : Json) : String := (e.toObject.value "id").toString

/-- The display name of a raw batch entry. -/
def entryName (e : Json) : String := (e.toObject.value "name").toString

/-- Whether a raw batch entry survives every rejection of the batch builder:
present metadata, the visibility policy, and a non-empty primary image. -/
def entryAccepted (s : Settings) (kind : SeventvEmoteSetKind) (e : Json) :
    Bool :=
  !(entryData e).isEmptyObj && checkEmoteVisibility s (entryData e) kind &&
    (createEmote s e.toObject (entryData e) kind).hasImages

/-- The key invariant of a collection: every stored record's own name field
equals the key it is stored under. -/
def NameKeyInv (m : EmoteMap) : Prop :=
  ∀ kp ∈ m, kp.2.emote.name = kp.1

instance (m : EmoteMap) : Decidable (NameKeyInv m) :=
  List.decidableBAll _ m

/-! ## Concrete inputs used by counterexamples and witnesses -/

/-- A WEBP image file descriptor of the given width. -/
def webpFile (w : ℚ) (nm : String) : Json :=
  .obj [("name", .str nm), ("format", .str "WEBP"), ("width", .num w),
    ("height", .num w)]

/-- A single GIF image file descriptor. -/
def gifFile : Json :=
  .obj [("name", .str "x.gif"), ("format", .str "GIF"), ("width", .num 1),
    ("height", .num 1)]

/-- An AVIF image file descriptor. -/
def avifFile : Json :=
  .obj [("name", .str "x.avif"), ("format", .str "AVIF"), ("width", .num 1),
    ("height", .num 1)]

/-- A listed, unflagged raw batch entry with the given identifier, display
name, base name and files. -/
def mkEntry (id nm base : String) (files : List Json) : Json :=
  .obj [("id", .str id), ("name", .str nm),
    ("data", .obj [("id", .str id), ("name", .str base),
      ("listed", .bool true), ("flags", .num 0),
      ("host", .obj [("url", .str "//cdn/e"), ("files", .arr files)])])]

/-- Settings with next-gen images off and unlisted emotes shown. -/
def S0 : Settings := ⟨false, true⟩

/-! ## Collection and cache lemmas -/

theorem lookupName_insertE_self (m : EmoteMap) (k : String) (v : EmotePtr) :
    (m.insertE k v).lookupName k = some v := by
  induction m with
  | nil => simp [EmoteMap.insertE, EmoteMap.lookupName]
  | cons hd tl ih =>
    obtain ⟨a, b⟩ := hd
    by_cases h : a = k <;>
      simp [EmoteMap.insertE, EmoteMap.lookupName, h, ih]

theorem lookupName_insertE_ne (m : EmoteMap) (k k' : String) (v : EmotePtr)
    (h : k' ≠ k) : (m.insertE k v).lookupName k' = m.lookupName k' := by
  induction m with
  | nil => simp [EmoteMap.insertE, EmoteMap.lookupName, Ne.symm h]
  | cons hd tl ih =>
    obtain ⟨a, b⟩ := hd
    by_cases ha : a = k
    · subst ha
      simp [EmoteMap.insertE, EmoteMap.lookupName, h, Ne.symm h]
    · by_cases hb : a = k' <;>
        simp [EmoteMap.insertE, EmoteMap.lookupName, h, ha, hb, ih]

theorem lookupName_eraseE_ne (m : EmoteMap) (k k' : String)
    (h : k' ≠ k) : (m.eraseE k).lookupName k' = m.lookupName k' := by
  induction m with
  | nil => simp [EmoteMap.eraseE, EmoteMap.lookupName]
  | cons hd tl ih =>
    obtain ⟨a, b⟩ := hd
    by_cases ha : a = k
    · subst ha
      simp [EmoteMap.eraseE, EmoteMap.lookupName, Ne.symm h]
    · by_cases hb : a = k' <;>
        simp [EmoteMap.eraseE, EmoteMap.lookupName, h, ha, hb, ih]

theorem length_insertE_of_lookup (m : EmoteMap) (k : String)
    (v v' : EmotePtr) (h : m.lookupName k = some v') :
    (m.insertE k v).length = m.length := by
  induction m with
  | nil => simp [EmoteMap.lookupName] at h
  | cons hd tl ih =>
    obtain ⟨a, b⟩ := hd
    by_cases ha : a = k
    · simp [EmoteMap.insertE, ha]
    · simp [EmoteMap.lookupName, ha] at h
      simp [EmoteMap.insertE, ha, ih h]

theorem mem_insertE (m : EmoteMap) (k : String) (v : EmotePtr)
    (p : String × EmotePtr) (h : p ∈ m.insertE k v) :
    p = (k, v) ∨ p ∈ m := by
  induction m with
  | nil => simpa [EmoteMap.insertE] using h
  | cons hd tl ih =>
    obtain ⟨a, b⟩ := hd
    by_cases ha : a = k
    · simp only [EmoteMap.insertE, ha, if_pos rfl] at h
      rcases List.mem_cons.mp h with h | h
      · exact Or.inl h
      · exact Or.inr (List.mem_cons_of_mem _ h)
    · simp only [EmoteMap.insertE, if_neg ha] at h
      rcases List.mem_cons.mp h with h | h
      · exact Or.inr (h ▸ List.mem_cons_self _ _)
      · rcases ih h with h | h
        · exact Or.inl h
        · exact Or.inr (List.mem_cons_of_mem _ h)

theorem mem_eraseE (m : EmoteMap) (k : String) (p : String × EmotePtr)
    (h : p ∈ m.eraseE k) : p ∈ m := by
  induction m with
  | nil => exact absurd h (by simp [EmoteMap.eraseE])
  | cons hd tl ih =>
    obtain ⟨a, b⟩ := hd
    by_cases ha : a = k
    · simp only [EmoteMap.eraseE, if_pos ha] at h
      exact List.mem_cons_of_mem _ h
    · simp only [EmoteMap.eraseE, if_neg ha] at h
      rcases List.mem_cons.mp h with h | h
      · exact h ▸ List.mem_cons_self _ _
      · exact List.mem_cons_of_mem _ (ih h)

theorem lookupLive_insertW_ne (c : Cache) (id id' : String)
    (w : Option EmotePtr) (h : id' ≠ id) :
    (c.insertW id w).lookupLive id' = c.lookupLive id' := by
  induction c with
  | nil => simp [Cache.insertW, Cache.lookupLive, h, Ne.symm h]
  | cons hd tl ih =>
    obtain ⟨a, b⟩ := hd
    by_cases ha : a = id
    · subst ha
      simp [Cache.insertW, Cache.lookupLive, Ne.symm h]
    · by_cases hb : a = id' <;>
        simp [Cache.insertW, Cache.lookupLive, h, ha, hb, ih]

theorem NameKeyInv_insertE {m : EmoteMap} {k : String} {v : EmotePtr}
    (hm : NameKeyInv m) (hv : v.emote.name = k) :
    NameKeyInv (m.insertE k v) := by
  intro kp hkp
  rcases mem_insertE m k v kp hkp with h | h
  · subst h; exact hv
  · exact hm kp h

theorem NameKeyInv_eraseE {m : EmoteMap} {k : String}
    (hm : NameKeyInv m) : NameKeyInv (m.eraseE k) := by
  intro kp hkp
  exact hm kp (mem_eraseE m k kp hkp)

/-! ## Characterization of the batch-builder step -/

theorem parseEmotesStep_eq (s : Settings) (kind : SeventvEmoteSetKind)
    (st : BuildState) (e : Json) :
    parseEmotesStep s kind st e =
      if entryAccepted s kind e then
        let result := createEmote s e.toObject (entryData e) kind
        let pca := cachedOrMake result.emote result.id st.cache st.alloc
        (⟨st.emotes.insertE result.name pca.1, pca.2.1, pca.2.2⟩ : BuildState)
      else st := by
  rcases Bool.eq_false_or_eq_true
      (e.toObject.value "data").toObject.isEmptyObj with h1 | h1 <;>
    rcases Bool.eq_false_or_eq_true
        (checkEmoteVisibility s (e.toObject.value "data").toObject kind)
      with h2 | h2 <;>
      rcases Bool.eq_false_or_eq_true
          (createEmote s e.toObject
            (e.toObject.value "data").toObject kind).hasImages with h3 | h3 <;>
        simp [parseEmotesStep, entryAccepted, entryData, h1, h2, h3]

theorem parseEmotesStep_skip (s : Settings) (kind : SeventvEmoteSetKind)
    (st : BuildState) (e : Json) (h : entryAccepted s kind e = false) :
    parseEmotesStep s kind st e = st := by
  rw [parseEmotesStep_eq]
  simp [h]

/-! ## The variant-filling loop -/

theorem fillStep_not_matching (bu t : String) (st : SizesState) (f : Json)
    (h : (f.toObject.value "format").toString ≠ t) :
    fillStep bu t st f = st := by
  by_cases h4 : st.nextSize ≥ 4 <;> simp [fillStep, h4, h]

theorem fillStep_full (bu t : String) (st : SizesState) (f : Json)
    (h : st.nextSize ≥ 4) : fillStep bu t st f = st := by
  simp [fillStep, h]

theorem fillSizes_full (bu t : String) (files : List Json) (st : SizesState)
    (h : st.nextSize ≥ 4) : fillSizes bu t files st = st := by
  induction files generalizing st with
  | nil => rfl
  | cons f rest ih =>
    show fillSizes bu t rest (fillStep bu t st f) = st
    rw [fillStep_full bu t st f h, ih st h]

theorem fillSizes_filter (bu t : String) (files : List Json)
    (st : SizesState) :
    fillSizes bu t files st =
      fillSizes bu t
        (files.filter (fun f => (f.toObject.value "format").toString = t))
        st := by
  induction files generalizing st with
  | nil => rfl
  | cons f rest ih =>
    by_cases h : (f.toObject.value "format").toString = t
    · show fillSizes bu t rest (fillStep bu t st f) = _
      rw [List.filter_cons_of_pos (by simpa using h)]
      exact ih (fillStep bu t st f)
    · show fillSizes bu t rest (fillStep bu t st f) = _
      rw [List.filter_cons_of_neg (by simpa using h),
        fillStep_not_matching bu t st f h]
      exact ih st

theorem getD_set_ne {α : Type} (l : List α) (i j : Nat) (a d : α)
    (h : j ≠ i) : (l.set j a).getD i d = l.getD i d := by
  simp [List.getD_eq_getElem?_getD, List.getElem?_set_ne h]

theorem getD_set_self {α : Type} (l : List α) (j : Nat) (a d : α)
    (h : j < l.length) : (l.set j a).getD j d = a := by
  simp [List.getD_eq_getElem?_getD, List.getElem?_set_self',
    List.getElem?_eq_getElem h]

theorem fillStep_matching (bu t : String) (st : SizesState) (f : Json)
    (h4 : st.nextSize < 4) (hf : (f.toObject.value "format").toString = t) :
    fillStep bu t st f =
      ⟨st.sizes.set st.nextSize (some (mkFileImage bu f
          (if st.baseWidth > 0 then
            st.baseWidth / (f.toObject.value "width").toDouble
          else 1))),
        (if st.baseWidth > 0 then st.baseWidth
         else (f.toObject.value "width").toDouble),
        st.nextSize + 1⟩ := by
  have h4 := Nat.not_le.mpr h4
  simp [fillStep, h4, hf]

theorem fillStep_invariant (bu t : String) (st : SizesState) (f : Json)
    (hlen : st.sizes.length = 4)
    (hsome : ∀ i, i < st.nextSize → (st.sizes.getD i none).isSome) :
    (fillStep bu t st f).sizes.length = 4 ∧
      (∀ i, i < (fillStep bu t st f).nextSize →
        ((fillStep bu t st f).sizes.getD i none).isSome) ∧
      st.nextSize ≤ (fillStep bu t st f).nextSize := by
  by_cases h4 : st.nextSize ≥ 4
  · simp only [fillStep_full bu t st f h4]
    exact ⟨hlen, hsome, le_refl _⟩
  · by_cases hf : (f.toObject.value "format").toString = t
    · rw [fillStep_matching bu t st f (Nat.lt_of_not_le h4) hf]
      refine ⟨by simp [hlen], ?_, Nat.le_succ _⟩
      intro i hi
      rcases Nat.lt_succ_iff_lt_or_eq.mp hi with hi | hi
      · rw [getD_set_ne _ _ _ _ _ (Ne.symm (Nat.ne_of_lt hi))]
        exact hsome i hi
      · subst hi
        rw [getD_set_self _ _ _ _ (by omega)]
        simp
    · simp only [fillStep_not_matching bu t st f hf]
      exact ⟨hlen, hsome, le_refl _⟩

theorem fillSizes_invariant (bu t : String) (files : List Json)
    (st : SizesState) (hlen : st.sizes.length = 4)
    (hsome : ∀ i, i < st.nextSize → (st.sizes.getD i none).isSome) :
    (fillSizes bu t files st).sizes.length = 4 ∧
      (∀ i, i < (fillSizes bu t files st).nextSize →
        ((fillSizes bu t files st).sizes.getD i none).isSome) := by
  induction files generalizing st with
  | nil => exact ⟨hlen, hsome⟩
  | cons f rest ih =>
    obtain ⟨h1, h2, _⟩ := fillStep_invariant bu t st f hlen hsome
    exact ih (fillStep bu t st f) h1 h2

theorem range_four : List.range 4 = [0, 1, 2, 3] := by decide

theorem padSizes_getD (sizes : List ImagePtr) (n i : Nat)
    (hlen : sizes.length = 4) (hi : i < 4) :
    (padSizes sizes n).getD i none =
      if i ≥ n then some Image.getEmpty else sizes.getD i none := by
  rw [padSizes, hlen, range_four]
  interval_cases i <;> simp [List.getD]

theorem createImageSetFrom_img1_isSome (a : Bool) (bu : String)
    (files : List Json) : (createImageSetFrom a bu files).img1.isSome := by
  have hinit : ∀ i, i < SizesState.init.nextSize →
      ((SizesState.init).sizes.getD i none).isSome := by
    intro i hi
    simp [SizesState.init] at hi
  obtain ⟨hlen, hsome⟩ := fillSizes_invariant bu (targetFormat a files) files
    SizesState.init rfl hinit
  unfold createImageSetFrom
  by_cases h0 :
      (fillSizes bu (targetFormat a files) files SizesState.init).nextSize = 0
  · simp [h0, ImageSet.emptySet]
  · simp only [h0, if_false]
    rw [padSizes_getD _ _ 0 hlen (by omega)]
    rw [if_neg (by omega)]
    exact hsome 0 (by omega)

theorem createImageSet_img1_isSome (s : Settings) (d : JsonObj) :
    (createImageSet s d).img1.isSome :=
  createImageSetFrom_img1_isSome s.allowAvifImages _ _

theorem fillSizes_take (bu t : String) (files : List Json) (st : SizesState)
    (hall : ∀ f ∈ files, (f.toObject.value "format").toString = t) :
    fillSizes bu t files st =
      fillSizes bu t (files.take (4 - st.nextSize)) st := by
  induction files generalizing st with
  | nil => simp
  | cons f rest ih =>
    by_cases h4 : st.nextSize ≥ 4
    · have ht : 4 - st.nextSize = 0 := by omega
      rw [ht, List.take_zero]
      exact fillSizes_full bu t (f :: rest) st h4
    · have hf := hall f (List.mem_cons_self _ _)
      have h4 := Nat.lt_of_not_le h4
      have ht : 4 - st.nextSize = (4 - (st.nextSize + 1)) + 1 := by omega
      rw [ht, List.take_succ_cons]
      show fillSizes bu t rest (fillStep bu t st f) =
        fillSizes bu t (rest.take (4 - (st.nextSize + 1)))
          (fillStep bu t st f)
      have hn : (fillStep bu t st f).nextSize = st.nextSize + 1 := by
        rw [fillStep_matching bu t st f h4 hf]
      rw [← hn]
      exact ih (fillStep bu t st f)
        (fun g hg => hall g (List.mem_cons_of_mem _ hg))

theorem fillSizes_established (bu t : String) (ms : List Json)
    (st : SizesState)
    (hall : ∀ f ∈ ms, (f.toObject.value "format").toString = t ∧
      (f.toObject.value "width").toDouble > 0)
    (hb : st.baseWidth > 0) (hlen : st.sizes.length = 4)
    (h4 : st.nextSize ≤ 4) :
    (fillSizes bu t ms st).baseWidth = st.baseWidth ∧
      (fillSizes bu t ms st).nextSize = min (st.nextSize + ms.length) 4 ∧
      (fillSizes bu t ms st).sizes.length = 4 ∧
      (∀ i, i < st.nextSize →
        (fillSizes bu t ms st).sizes.getD i none = st.sizes.getD i none) ∧
      (∀ j, j < ms.length → st.nextSize + j < 4 →
        (fillSizes bu t ms st).sizes.getD (st.nextSize + j) none =
          some (mkFileImage bu (ms.getD j .null)
            (st.baseWidth /
              ((ms.getD j .null).toObject.value "width").toDouble))) := by
  induction ms generalizing st with
  | nil =>
    refine ⟨rfl, ?_, hlen, fun i _ => rfl, fun j hj _ => absurd hj (by simp)⟩
    show st.nextSize = min (st.nextSize + 0) 4
    rw [Nat.add_zero, Nat.min_eq_left h4]
  | cons f rest ih =>
    by_cases hfull : st.nextSize ≥ 4
    · have h44 : st.nextSize = 4 := le_antisymm h4 hfull
      rw [fillSizes_full bu t _ st hfull]
      refine ⟨rfl, ?_, hlen, fun i _ => rfl, fun j _ hlt => absurd hlt (by omega)⟩
      rw [h44, (Nat.min_eq_right (by omega) :
        min (4 + (f :: rest).length) 4 = 4)]
    · have h4' : st.nextSize < 4 := Nat.lt_of_not_le hfull
      obtain ⟨hfmt, hw⟩ := hall f (List.mem_cons_self _ _)
      have hstep : fillSizes bu t (f :: rest) st =
          fillSizes bu t rest (fillStep bu t st f) := rfl
      rw [hstep, fillStep_matching bu t st f h4' hfmt]
      simp only [if_pos hb]
      set st2 : SizesState :=
        ⟨st.sizes.set st.nextSize (some (mkFileImage bu f
            (st.baseWidth / (f.toObject.value "width").toDouble))),
          st.baseWidth, st.nextSize + 1⟩ with hst2
      have hnn : st2.nextSize = st.nextSize + 1 := rfl
      have hbw : st2.baseWidth = st.baseWidth := rfl
      have hsz : st2.sizes = st.sizes.set st.nextSize (some (mkFileImage bu f
          (st.baseWidth / (f.toObject.value "width").toDouble))) := rfl
      obtain ⟨hb2, hn2, hl2, hlow2, hslot2⟩ := ih st2
        (fun g hg => hall g (List.mem_cons_of_mem _ hg))
        (hbw ▸ hb) (by rw [hsz]; simpa using hlen) (by rw [hnn]; omega)
      rw [hnn] at hn2 hlow2 hslot2
      refine ⟨hb2, ?_, hl2, ?_, ?_⟩
      · rw [hn2]
        have harith : st.nextSize + 1 + rest.length =
            st.nextSize + (f :: rest).length := by
          simp [List.length_cons]
          omega
        rw [harith]
      · intro i hi
        rw [hlow2 i (by omega)]
        exact getD_set_ne _ _ _ _ _ (Nat.ne_of_gt hi)
      · intro j hj hlt
        match j with
        | 0 =>
          rw [Nat.add_zero]
          rw [hlow2 st.nextSize (by omega)]
          rw [getD_set_self _ _ _ _ (by omega)]
          rfl
        | Nat.succ j =>
          have hgoal := hslot2 j (by simpa using hj) (by omega)
          have harith : st.nextSize + 1 + j = st.nextSize + (j + 1) := by omega
          rw [harith] at hgoal
          exact hgoal

/-! ## Folding the batch builder -/

theorem createEmote_name_eq (s : Settings) (a d : JsonObj)
    (kind : SeventvEmoteSetKind) :
    (createEmote s a d kind).name = (JsonObj.value a "name").toString := rfl

theorem createEmote_id_eq (s : Settings) (a d : JsonObj)
    (kind : SeventvEmoteSetKind) :
    (createEmote s a d kind).id = (JsonObj.value a "id").toString := rfl

theorem createEmote_own_name (s : Settings) (a d : JsonObj)
    (kind : SeventvEmoteSetKind) :
    (createEmote s a d kind).emote.name = (createEmote s a d kind).name := rfl

theorem parse_foldl_mem (s : Settings) (kind : SeventvEmoteSetKind)
    (entries : List Json) (st : BuildState) (k : String) (p : EmotePtr)
    (h : (k, p) ∈ (entries.foldl (parseEmotesStep s kind) st).emotes) :
    (k, p) ∈ st.emotes ∨
      ∃ e ∈ entries, entryAccepted s kind e = true ∧ k = entryName e := by
  induction entries generalizing st with
  | nil => exact Or.inl h
  | cons e rest ih =>
    rw [List.foldl_cons] at h
    rcases ih (parseEmotesStep s kind st e) h with h2 | h2
    · by_cases ha : entryAccepted s kind e = true
      · simp only [parseEmotesStep_eq, ha, if_true] at h2
        rcases mem_insertE _ _ _ _ h2 with h3 | h3
        · refine Or.inr ⟨e, List.mem_cons_self _ _, ha, ?_⟩
          have hk : k = (createEmote s e.toObject (entryData e) kind).name :=
            congrArg Prod.fst h3
          exact hk
        · exact Or.inl h3
      · simp only [parseEmotesStep_eq, ha, if_false] at h2
        exact Or.inl h2
    · obtain ⟨e2, he2, hacc, hk⟩ := h2
      exact Or.inr ⟨e2, List.mem_cons_of_mem _ he2, hacc, hk⟩

theorem parse_foldl_inv (s : Settings) (kind : SeventvEmoteSetKind)
    (entries : List Json) (st : BuildState)
    (hinv : NameKeyInv st.emotes)
    (hcache : ∀ e ∈ entries, st.cache.lookupLive (entryId e) = none)
    (hnodup : (entries.map entryId).Nodup) :
    NameKeyInv (entries.foldl (parseEmotesStep s kind) st).emotes := by
  induction entries generalizing st with
  | nil => exact hinv
  | cons e rest ih =>
    rw [List.foldl_cons]
    rw [List.map_cons, List.nodup_cons] at hnodup
    by_cases ha : entryAccepted s kind e = true
    · have hmiss : st.cache.lookupLive
          (createEmote s e.toObject (entryData e) kind).id = none :=
        hcache e (List.mem_cons_self _ _)
      have hstep : parseEmotesStep s kind st e =
          ⟨st.emotes.insertE
              (createEmote s e.toObject (entryData e) kind).name
              ⟨st.alloc, (createEmote s e.toObject (entryData e) kind).emote⟩,
            st.cache.insertW
              (createEmote s e.toObject (entryData e) kind).id
              (some ⟨st.alloc,
                (createEmote s e.toObject (entryData e) kind).emote⟩),
            st.alloc + 1⟩ := by
        rw [parseEmotesStep_eq]
        simp only [ha, if_true]
        simp [cachedOrMake, cachedOrMakeEmotePtr, hmiss]
      rw [hstep]
      apply ih
      · exact NameKeyInv_insertE hinv rfl
      · intro e2 he2
        have hne : entryId e2 ≠
            (createEmote s e.toObject (entryData e) kind).id := by
          intro hEq
          have h2 : entryId e2 = entryId e := hEq
          exact hnodup.1 (h2 ▸ List.mem_map_of_mem entryId he2)
        show (st.cache.insertW _ _).lookupLive (entryId e2) = none
        rw [lookupLive_insertW_ne _ _ _ _ hne]
        exact hcache e2 (List.mem_cons_of_mem _ he2)
      · exact hnodup.2
    · have ha2 : entryAccepted s kind e = false := by
        revert ha
        cases entryAccepted s kind e <;> simp
      rw [parseEmotesStep_skip s kind st e ha2]
      exact ih st hinv
        (fun e2 he2 => hcache e2 (List.mem_cons_of_mem _ he2)) hnodup.2

/-- Characterization of `addEmote`: a single acceptance condition selects
between the publishing outcome and the unchanged one. -/
theorem addEmote_eq (s : Settings) (map : EmoteMap) (d : EmoteAddDispatch)
    (kind : SeventvEmoteSetKind) (alloc : Nat) :
    addEmote s map d kind alloc =
      if (!(d.emoteJson.value "data").toObject.isEmptyObj &&
          checkEmoteVisibility s (d.emoteJson.value "data").toObject kind &&
          (createEmote s d.emoteJson
            (d.emoteJson.value "data").toObject kind).hasImages) = true then
        ⟨map.insertE
            (createEmote s d.emoteJson
              (d.emoteJson.value "data").toObject kind).name
            ⟨alloc, (createEmote s d.emoteJson
              (d.emoteJson.value "data").toObject kind).emote⟩,
          true,
          some ⟨alloc, (createEmote s d.emoteJson
            (d.emoteJson.value "data").toObject kind).emote⟩,
          alloc + 1⟩
      else ⟨map, false, none, alloc⟩ := by
  rcases Bool.eq_false_or_eq_true
      (d.emoteJson.value "data").toObject.isEmptyObj with h1 | h1 <;>
    rcases Bool.eq_false_or_eq_true
        (checkEmoteVisibility s (d.emoteJson.value "data").toObject kind)
      with h2 | h2 <;>
      rcases Bool.eq_false_or_eq_true
          (createEmote s d.emoteJson
            (d.emoteJson.value "data").toObject kind).hasImages with h3 | h3 <;>
        simp [addEmote, h1, h2, h3]

/-! ## Claims -/

/-- Claim C1 (amended): if next-gen support is disabled or the file list is empty
the legacy format WEBP is chosen; with exactly one file that file's own
declared format is chosen, whatever it is; with at least two files only the
first two are inspected and AVIF is chosen iff one of them declares it,
WEBP in every other case (in particular when only an entry past the first
two is AVIF). -/
theorem targetFormat_policy (allowAvif : Bool) (files : List Json) :
    ((allowAvif = false ∨ files = []) →
      targetFormat allowAvif files = "WEBP") ∧
    (allowAvif = true → files.length = 1 →
      targetFormat allowAvif files =
        ((files.getD 0 .null).get "format").toString) ∧
    (allowAvif = true → 2 ≤ files.length →
      (targetFormat allowAvif files = "AVIF" ↔
        (((files.getD 0 .null).get "format").toString = "AVIF" ∨
          ((files.getD 1 .null).get "format").toString = "AVIF")) ∧
      (¬(((files.getD 0 .null).get "format").toString = "AVIF" ∨
          ((files.getD 1 .null).get "format").toString = "AVIF") →
        targetFormat allowAvif files = "WEBP")) := by
  refine ⟨?_, ?_, ?_⟩
  · rintro (h | h) <;> simp [targetFormat, h]
  · intro ha hlen
    rcases files with _ | ⟨f, rest⟩
    · simp at hlen
    · rcases rest with _ | ⟨g, rest⟩
      · simp [targetFormat, ha]
      · simp at hlen
  · intro ha hlen
    rcases files with _ | ⟨f, rest⟩
    · simp at hlen
    · rcases rest with _ | ⟨g, rest⟩
      · simp at hlen
      · have hc : ¬(rest.length + 1 + 1 < 2) := by omega
        refine ⟨?_, ?_⟩
        · by_cases h1 : (f.get "format").toString = "AVIF" <;>
            by_cases h2 : (g.get "format").toString = "AVIF" <;>
              simp [targetFormat, ha, h1, h2, hc]
        · intro hno
          push_neg at hno
          simp only [List.getD_cons_zero, List.getD_cons_succ] at hno
          simp [targetFormat, ha, hno.1, hno.2, hc]

/-- Claim C1 counterexample: with next-gen support enabled and a single file whose
declared format is GIF (neither next-gen nor legacy), the chosen format is
GIF, not the legacy WEBP the claim requires. -/
theorem targetFormat_single_other_cex :
    targetFormat true [gifFile] = "GIF" ∧ ("GIF" : String) ≠ "WEBP" := by
  constructor
  · decide
  · decide

/-- Claim C1 witness: the amended policy evaluated at concrete inputs. -/
theorem targetFormat_policy_witness :
    targetFormat false [gifFile] = "WEBP" ∧
    targetFormat true [gifFile] =
      (([gifFile].getD 0 .null).get "format").toString ∧
    targetFormat true [gifFile, avifFile] = "AVIF" := by
  refine ⟨(targetFormat_policy false [gifFile]).1 (Or.inl rfl), ?_, ?_⟩
  · exact (targetFormat_policy true [gifFile]).2.1 rfl (by decide)
  · exact ((targetFormat_policy true [gifFile, avifFile]).2.2 rfl
      (by decide)).1.mpr (Or.inr (by decide))

/-- Claim C2 (amended): an update resolves to base iff the existing record has a
base name equal to the incoming display name; the replacement preserves
images, identifier, author, link and zero-width flag and takes the new
display name; when NOT resolving to base its base name is the old record's
base name when one exists and the old display name otherwise; the tooltip
is recomputed in the matching form; and the update operation publishes
exactly this replacement, freshly allocated. -/
theorem createUpdatedEmote_spec (old : EmotePtr) (d : EmoteUpdateDispatch)
    (kind : SeventvEmoteSetKind) :
    ((createUpdatedEmote old d kind).baseName = none ↔
      (old.emote.baseName.isSome &&
        (some d.emoteName == old.emote.baseName)) = true) ∧
    (createUpdatedEmote old d kind).name = d.emoteName ∧
    (createUpdatedEmote old d kind).images = old.emote.images ∧
    (createUpdatedEmote old d kind).id = old.emote.id ∧
    (createUpdatedEmote old d kind).author = old.emote.author ∧
    (createUpdatedEmote old d kind).homePage = old.emote.homePage ∧
    (createUpdatedEmote old d kind).zeroWidth = old.emote.zeroWidth ∧
    ((old.emote.baseName.isSome &&
        (some d.emoteName == old.emote.baseName)) = false →
      (createUpdatedEmote old d kind).baseName =
        some (old.emote.baseName.getD old.emote.name)) ∧
    ((old.emote.baseName.isSome &&
        (some d.emoteName == old.emote.baseName)) = true →
      (createUpdatedEmote old d kind).tooltip =
        createTooltip d.emoteName old.emote.author kind) ∧
    ((old.emote.baseName.isSome &&
        (some d.emoteName == old.emote.baseName)) = false →
      (createUpdatedEmote old d kind).tooltip =
        createAliasedTooltip d.emoteName
          (old.emote.baseName.getD old.emote.name) old.emote.author kind) ∧
    (∀ (map : EmoteMap) (alloc : Nat) (found : String × EmotePtr),
      map.findEmote d.emoteName d.emoteID = some found →
      (updateEmote map d kind alloc).returned =
        some ⟨alloc, createUpdatedEmote found.2 d kind⟩) := by
  constructor
  · rcases hb : old.emote.baseName with _ | b
    · simp [createUpdatedEmote, hb, makeConditionedOptional]
    · by_cases he : d.emoteName = b <;>
        simp [createUpdatedEmote, hb, he, makeConditionedOptional]
  refine ⟨rfl, rfl, rfl, rfl, rfl, rfl, ?_, ?_, ?_, ?_⟩
  · intro hna
    rcases hb : old.emote.baseName with _ | b
    · simp [createUpdatedEmote, hb, makeConditionedOptional]
    · rw [hb] at hna
      by_cases he : d.emoteName = b
      · simp [he] at hna
      · simp [createUpdatedEmote, hb, he, makeConditionedOptional]
  · intro hna
    rcases hb : old.emote.baseName with _ | b
    · rw [hb] at hna
      simp at hna
    · rw [hb] at hna
      by_cases he : d.emoteName = b
      · subst he
        simp [createUpdatedEmote, hb, makeConditionedOptional]
      · simp [he] at hna
  · intro hna
    rcases hb : old.emote.baseName with _ | b
    · simp [createUpdatedEmote, hb, makeConditionedOptional]
    · rw [hb] at hna
      by_cases he : d.emoteName = b
      · simp [he] at hna
      · simp [createUpdatedEmote, hb, he, makeConditionedOptional]
  · intro map alloc found hf
    simp only [updateEmote, hf]

/-- Claim C2 counterexample: updating an aliased record (display name `pog`, base
name `poggers`) to a third name keeps the base name `poggers`; the claim
requires the prior display name `pog` instead. -/
theorem createUpdatedEmote_baseName_cex :
    (createUpdatedEmote ⟨0, ⟨"pog", ImageSet.emptySet, "", "", false, "X",
        "", some "poggers"⟩⟩ ⟨"X", "pog3"⟩ .Channel).baseName =
      some "poggers" ∧
    (createUpdatedEmote ⟨0, ⟨"pog", ImageSet.emptySet, "", "", false, "X",
        "", some "poggers"⟩⟩ ⟨"X", "pog3"⟩ .Channel).baseName ≠
      some "pog" := by
  constructor
  · decide
  · decide

/-- Claim C2 witness: the amended description applied to a concrete aliased
record, both directly and through the update operation. -/
theorem createUpdatedEmote_spec_witness :
    (createUpdatedEmote ⟨0, ⟨"pog", ImageSet.emptySet, "", "", false, "X",
        "", some "poggers"⟩⟩ ⟨"X", "pog3"⟩ .Channel).baseName =
      some "poggers" ∧
    (updateEmote [("pog", ⟨0, ⟨"pog", ImageSet.emptySet, "", "", false, "X",
          "", some "poggers"⟩⟩)] ⟨"X", "pog3"⟩ .Channel 1).returned =
      some ⟨1, createUpdatedEmote ⟨0, ⟨"pog", ImageSet.emptySet, "", "",
        false, "X", "", some "poggers"⟩⟩ ⟨"X", "pog3"⟩ .Channel⟩ := by
  obtain ⟨-, -, -, -, -, -, -, h8, -, -, h11⟩ :=
    createUpdatedEmote_spec ⟨0, ⟨"pog", ImageSet.emptySet, "", "", false,
      "X", "", some "poggers"⟩⟩ ⟨"X", "pog3"⟩ .Channel
  constructor
  · exact (h8 (by decide)).trans (by decide)
  · exact h11 _ 1 ("pog", ⟨0, ⟨"pog", ImageSet.emptySet, "", "", false, "X",
      "", some "poggers"⟩⟩) (by decide)

/-- The alias round-trip scenario: add `pog` aliasing `poggers`, rename to
`poggers`, rename again to `pog2`. -/
def pogEntry : Json := mkEntry "X" "pog" "poggers" [webpFile 1 "1x.webp"]

/-- Adding the aliased emote to an empty collection. -/
def addPog : MutationResult := addEmote S0 [] ⟨pogEntry.toObject⟩ .Channel 0

/-- Renaming the alias back to its base name. -/
def updToBase : MutationResult :=
  updateEmote addPog.map ⟨"X", "poggers"⟩ .Channel 1

/-- Renaming once more to a fresh name. -/
def updAway : MutationResult :=
  updateEmote updToBase.map ⟨"X", "pog2"⟩ .Channel 2

/-- Claim C7: the alias round trip. Adding `pog` with base `poggers` yields a
record with base name `poggers`; updating to `poggers` yields a record with
no base name and the non-aliased tooltip form; a further update to `pog2`
yields a record whose base name is `poggers`. -/
theorem alias_round_trip :
    addPog.returned.map (fun p => p.emote.baseName) =
      some (some "poggers") ∧
    updToBase.returned.map (fun p => p.emote.baseName) = some none ∧
    updToBase.returned.map (fun p => p.emote.tooltip) =
      some (createTooltip "poggers" "" .Channel) ∧
    updAway.returned.map (fun p => p.emote.baseName) =
      some (some "poggers") := by
  refine ⟨?_, ?_, ?_, ?_⟩ <;> decide

/-- Claim C5: every "no change" path leaves the collection cell untouched (no
snapshot is published, the held map is the same instance) and returns the
absent result: an Add rejected for absent metadata, visibility or missing
images, and an Update or Remove whose lookup by display name or identifier
misses. -/
theorem no_change_paths (s : Settings) (map : EmoteMap)
    (kind : SeventvEmoteSetKind) (alloc : Nat) :
    (∀ d : EmoteAddDispatch,
      ((d.emoteJson.value "data").toObject.isEmptyObj = true ∨
        checkEmoteVisibility s (d.emoteJson.value "data").toObject kind =
          false ∨
        (createEmote s d.emoteJson (d.emoteJson.value "data").toObject
          kind).hasImages = false) →
      addEmote s map d kind alloc = ⟨map, false, none, alloc⟩) ∧
    (∀ d : EmoteUpdateDispatch,
      map.findEmote d.emoteName d.emoteID = none →
      updateEmote map d kind alloc = ⟨map, false, none, alloc⟩) ∧
    (∀ d : EmoteRemoveDispatch,
      map.findEmote d.emoteName d.emoteID = none →
      removeEmote map d alloc = ⟨map, false, none, alloc⟩) := by
  refine ⟨?_, ?_, ?_⟩
  · intro d h
    rw [addEmote_eq]
    rcases h with h | h | h <;> simp [h]
  · intro d h
    simp [updateEmote, h]
  · intro d h
    simp [removeEmote, h]

/-- Claim C5 witness: the three no-change paths at concrete inputs. -/
theorem no_change_paths_witness :
    addEmote S0 [] ⟨[("id", Json.str "X")]⟩ .Channel 0 =
      ⟨[], false, none, 0⟩ ∧
    updateEmote [] ⟨"X", "name"⟩ .Channel 0 = ⟨[], false, none, 0⟩ ∧
    removeEmote [] ⟨"X", "name"⟩ 0 = ⟨[], false, none, 0⟩ := by
  obtain ⟨h1, h2, h3⟩ := no_change_paths S0 [] .Channel 0
  exact ⟨h1 ⟨[("id", Json.str "X")]⟩ (Or.inl (by decide)),
    h2 ⟨"X", "name"⟩ (by decide), h3 ⟨"X", "name"⟩ (by decide)⟩

/-- Claim C10: frame conditions of the three operations: every key other than the
affected display names keeps the very same shared record; an Add whose
display name is already present replaces the record under that name and
leaves the collection size unchanged. -/
theorem mutation_frame (s : Settings) (map : EmoteMap)
    (kind : SeventvEmoteSetKind) (alloc : Nat) :
    (∀ (d : EmoteAddDispatch) (k : String),
      k ≠ (createEmote s d.emoteJson
        (d.emoteJson.value "data").toObject kind).name →
      (addEmote s map d kind alloc).map.lookupName k = map.lookupName k) ∧
    (∀ (d : EmoteAddDispatch) (v : EmotePtr),
      map.lookupName (createEmote s d.emoteJson
        (d.emoteJson.value "data").toObject kind).name = some v →
      (addEmote s map d kind alloc).map.length = map.length) ∧
    (∀ d : EmoteAddDispatch,
      (addEmote s map d kind alloc).published = true →
      (addEmote s map d kind alloc).map.lookupName
          (createEmote s d.emoteJson
            (d.emoteJson.value "data").toObject kind).name =
        some ⟨alloc, (createEmote s d.emoteJson
          (d.emoteJson.value "data").toObject kind).emote⟩) ∧
    (∀ (d : EmoteUpdateDispatch) (found : String × EmotePtr) (k : String),
      map.findEmote d.emoteName d.emoteID = some found →
      k ≠ found.2.emote.name → k ≠ d.emoteName →
      (updateEmote map d kind alloc).map.lookupName k = map.lookupName k) ∧
    (∀ (d : EmoteRemoveDispatch) (found : String × EmotePtr) (k : String),
      map.findEmote d.emoteName d.emoteID = some found →
      k ≠ found.1 →
      (removeEmote map d alloc).map.lookupName k = map.lookupName k) := by
  refine ⟨?_, ?_, ?_, ?_, ?_⟩
  · intro d k hk
    rw [addEmote_eq]
    split
    · exact lookupName_insertE_ne map _ k _ hk
    · rfl
  · intro d v hv
    rw [addEmote_eq]
    split
    · exact length_insertE_of_lookup map _ _ v hv
    · rfl
  · intro d hpub
    rw [addEmote_eq] at hpub ⊢
    by_cases hcond : (!(d.emoteJson.value "data").toObject.isEmptyObj &&
        checkEmoteVisibility s (d.emoteJson.value "data").toObject kind &&
        (createEmote s d.emoteJson
          (d.emoteJson.value "data").toObject kind).hasImages) = true
    · rw [if_pos hcond]
      exact lookupName_insertE_self map _ _
    · rw [if_neg hcond] at hpub
      simp at hpub
  · intro d found k hf hk1 hk2
    simp only [updateEmote, hf]
    rw [lookupName_insertE_ne _ _ _ _
      (show k ≠ (⟨alloc, createUpdatedEmote found.2 d kind⟩ :
        EmotePtr).emote.name from hk2)]
    exact lookupName_eraseE_ne map _ k hk1
  · intro d found k hf hk
    simp only [removeEmote, hf]
    exact lookupName_eraseE_ne map _ k hk

/-- A listed entry with identifier `X`, display name `A`, one WEBP file. -/
def entryA : Json := mkEntry "X" "A" "A" [webpFile 1 "1x.webp"]

/-- A listed entry with the same identifier `X` but display name `B`. -/
def entryB : Json := mkEntry "X" "B" "B" [webpFile 1 "1x.webp"]

/-- The record built from `entryA` (as interned on a cache miss). -/
def recA : Emote :=
  ⟨"A", ⟨some ⟨"https://cdn/e/1x.webp", 1, 1, 1⟩, some Image.getEmpty,
      some Image.getEmpty⟩,
    "A<br>Channel 7TV Emote<br>By: <deleted>", "https://7tv.app/emotes/X",
    false, "X", "", none⟩

/-- Claim C10 witness: the frame conditions at concrete inputs. -/
theorem mutation_frame_witness :
    (addEmote S0 [("Z", ⟨7, recA⟩)] ⟨entryA.toObject⟩ .Channel
        5).map.lookupName "Z" =
      EmoteMap.lookupName [("Z", ⟨7, recA⟩)] "Z" ∧
    (addEmote S0 [("A", ⟨7, recA⟩)] ⟨entryA.toObject⟩ .Channel
        5).map.length = List.length ([("A", ⟨7, recA⟩)] : EmoteMap) ∧
    (addEmote S0 [("A", ⟨7, recA⟩)] ⟨entryA.toObject⟩ .Channel
        5).map.lookupName "A" = some ⟨5, recA⟩ ∧
    (updateEmote [("A", ⟨7, recA⟩), ("Z", ⟨8, recA⟩)] ⟨"X", "A2"⟩ .Channel
        5).map.lookupName "Z" =
      EmoteMap.lookupName [("A", ⟨7, recA⟩), ("Z", ⟨8, recA⟩)] "Z" ∧
    (removeEmote [("A", ⟨7, recA⟩), ("Z", ⟨8, recA⟩)] ⟨"X", "A"⟩
        5).map.lookupName "Z" =
      EmoteMap.lookupName [("A", ⟨7, recA⟩), ("Z", ⟨8, recA⟩)] "Z" := by
  refine ⟨?_, ?_, ?_, ?_, ?_⟩
  · exact (mutation_frame S0 [("Z", ⟨7, recA⟩)] .Channel 5).1
      ⟨entryA.toObject⟩ "Z" (by decide)
  · exact (mutation_frame S0 [("A", ⟨7, recA⟩)] .Channel 5).2.1
      ⟨entryA.toObject⟩ ⟨7, recA⟩ (by decide)
  · have h := (mutation_frame S0 [("A", ⟨7, recA⟩)] .Channel 5).2.2.1
      ⟨entryA.toObject⟩ (by decide)
    exact h.trans (by decide)
  · exact (mutation_frame S0 [("A", ⟨7, recA⟩), ("Z", ⟨8, recA⟩)] .Channel
      5).2.2.2.1 ⟨"X", "A2"⟩ ("A", ⟨7, recA⟩) "Z" (by decide) (by decide)
      (by decide)
  · exact (mutation_frame S0 [("A", ⟨7, recA⟩), ("Z", ⟨8, recA⟩)] .Channel
      5).2.2.2.2 ⟨"X", "A"⟩ ("A", ⟨7, recA⟩) "Z" (by decide) (by decide)

/-- Claim C4 (amended): the intern cache returns the cached live instance for a
repeated identifier without touching the cache, and the batch builder
materializes through it, so a second materialization of a live identifier
yields the very same shared instance; the incremental Add, however,
bypasses the cache and always allocates a fresh instance. -/
theorem intern_dedup :
    (∀ (e : Emote) (c : Cache) (id : String) (a : Nat) (p : EmotePtr),
      c.lookupLive id = some p → cachedOrMake e id c a = (p, c, a)) ∧
    (∀ (s : Settings) (kind : SeventvEmoteSetKind) (e : Json) (c : Cache)
        (alloc : Nat) (p : EmotePtr),
      entryAccepted s kind e = true →
      c.lookupLive (entryId e) = some p →
      (parseEmotes s [e] kind c alloc).emotes.lookupName (entryName e) =
          some p ∧
        (parseEmotes s [e] kind c alloc).alloc = alloc) ∧
    (∀ (s : Settings) (map : EmoteMap) (d : EmoteAddDispatch)
        (kind : SeventvEmoteSetKind) (alloc : Nat) (p : EmotePtr),
      (addEmote s map d kind alloc).returned = some p → p.tag = alloc) := by
  refine ⟨?_, ?_, ?_⟩
  · intro e c id a p h
    simp [cachedOrMake, cachedOrMakeEmotePtr, h]
  · intro s kind e c alloc p hacc hlive
    have hlive2 : c.lookupLive
        (createEmote s e.toObject (entryData e) kind).id = some p := hlive
    have hstep : parseEmotes s [e] kind c alloc =
        parseEmotesStep s kind ⟨[], c, alloc⟩ e := rfl
    rw [hstep, parseEmotesStep_eq]
    simp only [hacc, if_true]
    simp only [cachedOrMake, cachedOrMakeEmotePtr, hlive2]
    exact ⟨lookupName_insertE_self [] _ p, trivial⟩
  · intro s map d kind alloc p hp
    rw [addEmote_eq] at hp
    by_cases hcond : (!(d.emoteJson.value "data").toObject.isEmptyObj &&
        checkEmoteVisibility s (d.emoteJson.value "data").toObject kind &&
        (createEmote s d.emoteJson
          (d.emoteJson.value "data").toObject kind).hasImages) = true
    · rw [if_pos hcond] at hp
      simp only [Option.some.injEq] at hp
      rw [← hp]
    · rw [if_neg hcond] at hp
      simp at hp

/-- Claim C4 counterexample: build a batch containing the entry with identifier
`X` (the interned instance has allocation tag 0 and is still referenced by
the resulting collection and the cache), then Add the very same entry: the
returned record has the fresh tag 1, not the cached instance's tag 0. -/
theorem add_bypasses_cache_cex :
    ((parseEmotes S0 [entryA] .Channel [] 0).cache.lookupLive "X").map
        EmotePtr.tag = some 0 ∧
    ((addEmote S0 (parseEmotes S0 [entryA] .Channel [] 0).emotes
        ⟨entryA.toObject⟩ .Channel
        (parseEmotes S0 [entryA] .Channel [] 0).alloc).returned).map
        EmotePtr.tag = some 1 ∧
    ((addEmote S0 (parseEmotes S0 [entryA] .Channel [] 0).emotes
        ⟨entryA.toObject⟩ .Channel
        (parseEmotes S0 [entryA] .Channel [] 0).alloc).returned).map
        (fun p => p.emote.id) = some "X" ∧
    (0 : Nat) ≠ 1 := by
  refine ⟨?_, ?_, ?_, ?_⟩ <;> decide

/-- Claim C4 witness: the amended statement at concrete inputs: a cache hit
returns the cached instance unchanged, a singleton batch stores it, and a
successful Add returns the fresh allocation tag. -/
theorem intern_dedup_witness :
    cachedOrMake recA "X" [("X", some ⟨0, recA⟩)] 7 =
      (⟨0, recA⟩, [("X", some ⟨0, recA⟩)], 7) ∧
    (parseEmotes S0 [entryA] .Channel [("X", some ⟨0, recA⟩)]
        7).emotes.lookupName (entryName entryA) = some ⟨0, recA⟩ ∧
    EmotePtr.tag ⟨5, recA⟩ = 5 := by
  obtain ⟨h1, h2, h3⟩ := intern_dedup
  refine ⟨h1 recA [("X", some ⟨0, recA⟩)] "X" 7 ⟨0, recA⟩ (by decide),
    (h2 S0 .Channel entryA [("X", some ⟨0, recA⟩)] 7 ⟨0, recA⟩ (by decide)
      (by decide)).1,
    h3 S0 [] ⟨entryA.toObject⟩ .Channel 5 ⟨5, recA⟩ (by decide)⟩

/-- Claim C3 (amended): the three incremental operations preserve the invariant
that every stored record's own name field equals its key, and a batch build
establishes it provided no processed identifier has a live intern-cache
entry and no two entries of the batch share an identifier; a cache hit
whose live record carries a different display name violates it. -/
theorem name_key_invariant :
    (∀ (s : Settings) (map : EmoteMap) (d : EmoteAddDispatch)
        (kind : SeventvEmoteSetKind) (alloc : Nat),
      NameKeyInv map → NameKeyInv (addEmote s map d kind alloc).map) ∧
    (∀ (map : EmoteMap) (d : EmoteUpdateDispatch)
        (kind : SeventvEmoteSetKind) (alloc : Nat),
      NameKeyInv map → NameKeyInv (updateEmote map d kind alloc).map) ∧
    (∀ (map : EmoteMap) (d : EmoteRemoveDispatch) (alloc : Nat),
      NameKeyInv map → NameKeyInv (removeEmote map d alloc).map) ∧
    (∀ (s : Settings) (entries : List Json) (kind : SeventvEmoteSetKind)
        (cache : Cache) (alloc : Nat),
      (∀ e ∈ entries, cache.lookupLive (entryId e) = none) →
      (entries.map entryId).Nodup →
      NameKeyInv (parseEmotes s entries kind cache alloc).emotes) := by
  refine ⟨?_, ?_, ?_, ?_⟩
  · intro s map d kind alloc hm
    rw [addEmote_eq]
    split
    · exact NameKeyInv_insertE hm rfl
    · exact hm
  · intro map d kind alloc hm
    rcases hf : map.findEmote d.emoteName d.emoteID with _ | found
    · simp only [updateEmote, hf]
      exact hm
    · simp only [updateEmote, hf]
      exact NameKeyInv_insertE (NameKeyInv_eraseE hm) rfl
  · intro map d alloc hm
    rcases hf : map.findEmote d.emoteName d.emoteID with _ | found
    · simp only [removeEmote, hf]
      exact hm
    · simp only [removeEmote, hf]
      exact NameKeyInv_eraseE hm
  · intro s entries kind cache alloc hcache hnodup
    refine parse_foldl_inv s kind entries ⟨[], cache, alloc⟩ ?_ hcache hnodup
    intro kp hkp
    simp at hkp

/-- Claim C3 counterexample: a batch holding two surviving entries with the same
identifier `X` but different display names `A` then `B`: the second
materialization hits the intern cache and the instance named `A` is stored
under the key `B`. -/
theorem name_key_invariant_cex :
    ¬ NameKeyInv (parseEmotes S0 [entryA, entryB] .Channel [] 0).emotes ∧
    ((parseEmotes S0 [entryA, entryB] .Channel [] 0).emotes.lookupName
        "B").map (fun p => p.emote.name) = some "A" := by
  constructor
  · decide
  · decide

/-- Claim C3 witness: the amended invariant at concrete inputs. -/
theorem name_key_invariant_witness :
    NameKeyInv (parseEmotes S0 [entryA] .Channel [] 0).emotes ∧
    NameKeyInv (updateEmote [("A", ⟨0, recA⟩)] ⟨"X", "A2"⟩ .Channel
      1).map := by
  obtain ⟨-, hupd, -, hparse⟩ := name_key_invariant
  exact ⟨hparse S0 [entryA] .Channel [] 0 (by decide) (by decide),
    hupd [("A", ⟨0, recA⟩)] ⟨"X", "A2"⟩ .Channel 1 (by decide)⟩

/-- Claim C8: every record of a built collection comes from an entry with present
metadata that passed the visibility policy and whose built record has a
non-empty primary (1x) image, and is stored under that entry's display
name; the visibility policy is exactly: listed unless the unlisted option
is on, carrying the personal-allowance tag when the set kind is Personal,
and not flagged disallowed-on-platform. -/
theorem parse_only_accepted (s : Settings) (entries : List Json)
    (kind : SeventvEmoteSetKind) (cache : Cache) (alloc : Nat) :
    (∀ (k : String) (p : EmotePtr),
      (k, p) ∈ (parseEmotes s entries kind cache alloc).emotes →
      ∃ e ∈ entries,
        (entryData e).isEmptyObj = false ∧
        checkEmoteVisibility s (entryData e) kind = true ∧
        (createEmote s e.toObject
          (entryData e) kind).emote.images.image1IsEmpty = false ∧
        k = entryName e) ∧
    (∀ ed : JsonObj,
      checkEmoteVisibility s ed kind = true ↔
        (((ed.value "listed").toBool = true ∨
            s.showUnlistedSevenTVEmotes = true) ∧
          (kind = SeventvEmoteSetKind.Personal →
            jsonArrContains (ed.value "state").toArray "PERSONAL" = true) ∧
          hasFlag ((ed.value "flags").toInt 0)
            contentTwitchDisallowedBit = false)) := by
  constructor
  · intro k p hmem
    rcases parse_foldl_mem s kind entries ⟨[], cache, alloc⟩ k p hmem
      with h | h
    · simp at h
    · obtain ⟨e, he, hacc, hk⟩ := h
      simp only [entryAccepted, Bool.and_eq_true, Bool.not_eq_true'] at hacc
      obtain ⟨⟨h1, h2⟩, h3⟩ := hacc
      refine ⟨e, he, h1, h2, ?_, hk⟩
      have h4 : (!(createEmote s e.toObject
          (entryData e) kind).emote.images.image1IsEmpty) = true := h3
      simpa using h4
  · intro ed
    by_cases hk : kind = SeventvEmoteSetKind.Personal <;>
      rcases Bool.eq_false_or_eq_true (ed.value "listed").toBool
        with h1 | h1 <;>
      rcases Bool.eq_false_or_eq_true s.showUnlistedSevenTVEmotes
        with h2 | h2 <;>
      rcases Bool.eq_false_or_eq_true
          (jsonArrContains (ed.value "state").toArray "PERSONAL")
        with h3 | h3 <;>
      rcases Bool.eq_false_or_eq_true
          (hasFlag ((ed.value "flags").toInt 0) contentTwitchDisallowedBit)
        with h4 | h4 <;>
      simp [checkEmoteVisibility, hk, h1, h2, h3, h4]

/-- Claim C8 witness: a concrete batch entry whose stored record satisfies all the
acceptance conditions. -/
theorem parse_only_accepted_witness :
    ∃ e ∈ [entryA],
      (entryData e).isEmptyObj = false ∧
      checkEmoteVisibility S0 (entryData e) SeventvEmoteSetKind.Channel =
        true ∧
      (createEmote S0 e.toObject (entryData e)
        SeventvEmoteSetKind.Channel).emote.images.image1IsEmpty = false ∧
      "A" = entryName e :=
  (parse_only_accepted S0 [entryA] .Channel [] 0).1 "A" ⟨0, recA⟩ (by decide)

/-- Claim C9: no operation of the core can fail: the variant selector always
yields a non-null primary slot (the one dereference the renderer performs),
and the batch builder degrades by omission: a rejected entry is skipped
while the rest of the batch is processed unchanged. -/
theorem totality_and_skip :
    (∀ (s : Settings) (d : JsonObj),
      (createImageSet s d).img1.isSome = true) ∧
    (∀ (s : Settings) (kind : SeventvEmoteSetKind) (e : Json)
        (rest : List Json) (cache : Cache) (alloc : Nat),
      entryAccepted s kind e = false →
      parseEmotes s (e :: rest) kind cache alloc =
        parseEmotes s rest kind cache alloc) := by
  constructor
  · intro s d
    exact createImageSet_img1_isSome s d
  · intro s kind e rest cache alloc h
    rw [parseEmotes, parseEmotes, List.foldl_cons,
      parseEmotesStep_skip s kind _ e h]

/-- Claim C9 witness: the totality statement at concrete inputs: an empty host
object still yields a non-null primary slot, and a malformed entry (absent
metadata) is skipped while the rest of the batch is processed. -/
theorem totality_and_skip_witness :
    (createImageSet S0 []).img1.isSome = true ∧
    parseEmotes S0 [Json.obj [("id", Json.str "X")], entryA] .Channel [] 0 =
      parseEmotes S0 [entryA] .Channel [] 0 := by
  obtain ⟨h1, h2⟩ := totality_and_skip
  exact ⟨h1 S0 [],
    h2 S0 .Channel (Json.obj [("id", Json.str "X")]) [entryA] [] 0
      (by decide)⟩

/-- The files of a list declaring the chosen format. -/
def matchingFiles (t : String) (files : List Json) : List Json :=
  files.filter (fun f => (f.toObject.value "format").toString = t)

/-- Host metadata with three WEBP files of widths 1, 2, 3. -/
def threeWebpHostData : JsonObj :=
  [("host", .obj [("url", .str "//cdn/e"),
    ("files", .arr [webpFile 1 "1x.webp", webpFile 2 "2x.webp",
      webpFile 3 "3x.webp"])])]

/-- Claim C6 (amended): provided every file matching the chosen format declares a
positive width, the first matching file establishes the reference width and
gets scale 1 and every subsequent matching file gets the reference width
divided by its own width, filling at most 4 slots in order of appearance;
for three WEBP files of widths 1, 2, 3 with next-gen disabled the slots
carry scales 1, 1/2, 1/3, slot 3 is the empty placeholder, and the resolved
largest variant is the slot-2 image. -/
theorem variant_scales (bu t : String) (files : List Json)
    (hpos : ∀ f ∈ matchingFiles t files,
      (f.toObject.value "width").toDouble > 0) :
    ((fillSizes bu t files SizesState.init).nextSize =
        min (matchingFiles t files).length 4 ∧
      (∀ i, i < min (matchingFiles t files).length 4 →
        (fillSizes bu t files SizesState.init).sizes.getD i none =
          some (mkFileImage bu ((matchingFiles t files).getD i .null)
            (if i = 0 then 1
             else (((matchingFiles t files).getD 0 .null).toObject.value
                "width").toDouble /
              (((matchingFiles t files).getD i .null).toObject.value
                "width").toDouble)))) ∧
    createImageSet S0 threeWebpHostData =
      ⟨some ⟨"https://cdn/e/1x.webp", 1, 1, 1⟩,
        some ⟨"https://cdn/e/2x.webp", 1/2, 2, 2⟩,
        some ⟨"https://cdn/e/3x.webp", 1/3, 3, 3⟩⟩ ∧
    (fillSizes "//cdn/e" "WEBP" [webpFile 1 "1x.webp", webpFile 2 "2x.webp",
        webpFile 3 "3x.webp"] SizesState.init).nextSize = 3 ∧
    (padSizes (fillSizes "//cdn/e" "WEBP" [webpFile 1 "1x.webp",
        webpFile 2 "2x.webp", webpFile 3 "3x.webp"]
        SizesState.init).sizes 3).getD 3 none = some Image.getEmpty := by
  refine And.intro ?_ (And.intro ?conc1 (And.intro ?conc2 ?conc3))
  case conc1 =>
    simp +decide [createImageSet, createImageSetFrom, threeWebpHostData,
      JsonObj.value, Json.toObject, Json.toArray, Json.toString,
      Json.toDouble, Json.toInt, targetFormat, fillSizes, fillStep, webpFile,
      SizesState.init, padSizes, pickLargest, mkFileImage, Image.fromUrl,
      ratTruncToInt, Image.getEmpty, Image.isEmpty, ImageSet.emptySet,
      List.foldl_cons, List.foldl_nil, List.getD]
  case conc2 =>
    simp +decide [fillSizes, fillStep, webpFile, SizesState.init,
      List.foldl_cons, List.foldl_nil, JsonObj.value, Json.toObject,
      Json.toString, Json.toDouble]
  case conc3 =>
    simp +decide [fillSizes, fillStep, webpFile, SizesState.init, padSizes,
      List.foldl_cons, List.foldl_nil, JsonObj.value, Json.toObject,
      Json.toString, Json.toDouble, List.getD, Image.getEmpty]
  have hallfmt : ∀ f ∈ matchingFiles t files,
      (f.toObject.value "format").toString = t := by
    intro f hf
    exact of_decide_eq_true (List.mem_filter.mp hf).2
  have hfe : fillSizes bu t files SizesState.init =
      fillSizes bu t (matchingFiles t files) SizesState.init :=
    fillSizes_filter bu t files SizesState.init
  rw [hfe]
  rcases hms : matchingFiles t files with _ | ⟨m0, mrest⟩
  · constructor
    · rfl
    · intro i hi
      simp at hi
  · rw [hms] at hallfmt hpos
    have hfmt0 := hallfmt m0 (List.mem_cons_self _ _)
    have hw0 := hpos m0 (List.mem_cons_self _ _)
    have hstate : fillStep bu t SizesState.init m0 =
        ⟨[some (mkFileImage bu m0 1), none, none, none],
          (m0.toObject.value "width").toDouble, 1⟩ := by
      rw [fillStep_matching bu t SizesState.init m0 (by decide) hfmt0]
      simp [SizesState.init]
    rw [show fillSizes bu t (m0 :: mrest) SizesState.init =
      fillSizes bu t mrest (fillStep bu t SizesState.init m0) from rfl]
    rw [hstate]
    obtain ⟨hb2, hn2, hl2, hlow2, hslot2⟩ := fillSizes_established bu t mrest
      ⟨[some (mkFileImage bu m0 1), none, none, none],
        (m0.toObject.value "width").toDouble, 1⟩
      (fun g hg => ⟨hallfmt g (List.mem_cons_of_mem _ hg),
        hpos g (List.mem_cons_of_mem _ hg)⟩)
      hw0 rfl (show (1 : Nat) ≤ 4 by omega)
    constructor
    · rw [hn2]
      congr 1
      simp [Nat.add_comm]
    · intro i hi
      have hi1 : i < mrest.length + 1 := by
        have h := Nat.lt_of_lt_of_le hi (min_le_left _ _)
        simpa using h
      have hi4 : i < 4 := Nat.lt_of_lt_of_le hi (min_le_right _ _)
      match i with
      | 0 =>
        rw [hlow2 0 (show (0 : Nat) < 1 by omega)]
        simp
      | Nat.succ j =>
        have hgoal := hslot2 j (show j < mrest.length by omega)
          (show 1 + j < 4 by omega)
        rw [show (1 : Nat) + j = j + 1 from Nat.add_comm 1 j] at hgoal
        rw [hgoal]
        simp

/-- Claim C6 counterexample: with a first matching file of width 0 (so the
reference width of the claim is 0) followed by one of width 2, the second
slot's scale is 1, not the 0/2 = 0 the claim's formula requires; the second
file, not the first, establishes the loop's reference width. -/
theorem variant_scale_zero_width_cex :
    ((fillSizes "b" "WEBP" [webpFile 0 "z", webpFile 2 "2x"]
        SizesState.init).sizes.getD 1 none).map Image.scale = some 1 ∧
    ((webpFile 0 "z").toObject.value "width").toDouble = 0 ∧
    (1 : ℚ) ≠ 0 / 2 ∧
    (fillSizes "b" "WEBP" [webpFile 0 "z", webpFile 2 "2x"]
        SizesState.init).baseWidth = 2 := by
  refine ⟨?_, by decide, by norm_num, ?_⟩ <;>
    simp +decide [fillSizes, fillStep, webpFile, SizesState.init,
      List.foldl_cons, List.foldl_nil, JsonObj.value, Json.toObject,
      Json.toString, Json.toDouble, List.getD, mkFileImage, Image.fromUrl,
      ratTruncToInt, Json.toInt]

/-- Claim C6 witness: the amended statement applied at a concrete two-file list
with positive widths. -/
theorem variant_scales_witness :
    (fillSizes "b" "WEBP" [webpFile 1 "a", webpFile 2 "c"]
        SizesState.init).nextSize =
      min (matchingFiles "WEBP" [webpFile 1 "a", webpFile 2 "c"]).length
        4 := by
  exact (variant_scales "b" "WEBP" [webpFile 1 "a", webpFile 2 "c"]
    (by decide)).1.1

end Seventv
